import Mathlib

/-!
# DRV8825 stepper driver (`src/stepper_driver/drv8825.cpp`)

A shallow embedding of the driver: the configuration functions `setup`,
`set_mode`, `set_current`, `set_enable`, and the timer interrupt
`TIMER0_COMPA_vect` that produces the step pulses.

Target platform.  The file includes `<avr/io.h>` and `<avr/interrupt.h>` and
programs the ATmega registers `OCR0A` and `TIMSK0`, so it is compiled by
avr-gcc: `int` is a 16-bit two's-complement integer, `byte` is `uint8_t`,
`long` has 32 bits and `double` is IEEE-754 binary32.  Machine integers are
modelled as `Int`/`Nat` with the reductions written out.
-/

namespace Drv8825

/-! ## Machine arithmetic -/

/-- Largest `int`. -/
def INT_MAX : Int := 32767

/-- Smallest `int`. -/
def INT_MIN : Int := -32768

/-- Reduction of an integer to the 16-bit two's-complement `int` that the
hardware stores: used for the store to an `int` object and for the result of
`count++` (signed overflow is undefined in C++; the code avr-gcc emits wraps). -/
def toInt16 (x : Int) : Int := (x + 32768) % 65536 - 32768

/-- Values an `int` object can hold. -/
def IsInt16 (x : Int) : Prop := INT_MIN ≤ x ∧ x ≤ INT_MAX

instance (x : Int) : Decidable (IsInt16 x) := by
  unfold IsInt16; exact inferInstance

/-- Conversion of an integer argument to a `byte` (`uint8_t`) parameter:
reduction modulo 256. -/
def toByte (x : Int) : Nat := (x % 256).toNat

/-- Arduino `bitRead(value, bit)`, that is `((value) >> (bit)) & 0x01`. -/
def bitRead (value bit : Nat) : Nat := (value >>> bit) &&& 1

/-- Arduino core `long map(long x, long in_min, long in_max, long out_min,
long out_max)`: `(x - in_min) * (out_max - out_min) / (in_max - in_min) +
out_min`, with C division (truncation toward zero).  For an `int` argument
and the constants used here every intermediate value is below `2^31`. -/
def map (x in_min in_max out_min out_max : Int) : Int :=
  Int.tdiv ((x - in_min) * (out_max - out_min)) (in_max - in_min) + out_min

/-- Significand of `CURRENT_SENSE_RESISTOR` (`0.2`) as a binary32 constant:
`0.2` is stored as `13421773 * 2^-26`. -/
def SENSE_MANT : Nat := 13421773

/-- Binary exponent of `CURRENT_SENSE_RESISTOR`: the constant is
`SENSE_MANT * 2^-SENSE_EXP`. -/
def SENSE_EXP : Nat := 26

/-- Number of significand bits of a binary32 value. -/
def FLT_MANT_DIG : Nat := 24

/-- Number of binary digits of `n`, computed with `fuel` halvings at most. -/
def bitLenAux : Nat → Nat → Nat
  | 0, _ => 0
  | fuel + 1, n => if n = 0 then 0 else bitLenAux fuel (n / 2) + 1

/-- Number of binary digits of `n` (`0` for `0`). -/
def bitLen (n : Nat) : Nat := bitLenAux n n

/-- Round a natural number to `FLT_MANT_DIG` significant bits, to nearest,
ties to even (the rounding of one binary32 operation on a value whose unit
is a fixed power of two). -/
def roundMant (n : Nat) : Nat :=
  let sh := bitLen n - FLT_MANT_DIG
  let q := n / 2 ^ sh
  let lo := n % 2 ^ sh
  let q1 := if 2 ^ sh < 2 * lo ∨ (2 * lo = 2 ^ sh ∧ q % 2 = 1) then q + 1 else q
  q1 * 2 ^ sh

/-- The expression `k * CURRENT_SENSE_RESISTOR` converted to `int`, for an
integer `k` that is exactly representable: the exact product
`k * SENSE_MANT * 2^-SENSE_EXP` is rounded to binary32 and then truncated
toward zero by the conversion to `int`. -/
def mulSenseToInt (k : Int) : Int :=
  let r : Int := (roundMant (k.natAbs * SENSE_MANT) / 2 ^ SENSE_EXP : Nat)
  if k < 0 then -r else r

/-! ## Constants of the source -/

def PIN_STEP : Nat := 0
def PIN_DIR : Nat := 10
/-- Pin `A3` of the standard ATmega328 variant. -/
def PIN_RESET : Nat := 17
/-- Pin `A2`. -/
def PIN_SLEEP : Nat := 16
/-- Pin `A1`. -/
def PIN_FAULT : Nat := 15
/-- Pin `A0`. -/
def PIN_DECAY : Nat := 14
def PIN_ENABLE : Nat := 9
/-- Pin `A5`. -/
def PIN_HOME : Nat := 19
def PIN_VREF : Nat := 3
def PIN_MODE0 : Nat := 7
def PIN_MODE1 : Nat := 6
def PIN_MODE2 : Nat := 5

def DEFAULT_MODE : Int := 0
def DEFAULT_CURRENT : Int := 1
def CURRENT_MIN : Int := 0
def CURRENT_MAX : Int := 2

/-- The literal `65535` does not fit a 16-bit `int`, so it has type `long`;
in `compare < COUNT_STOP` the `int` operand is promoted to `long` and the
comparison is the one of the mathematical values. -/
def COUNT_STOP : Int := 65535

/-! ## Machine state -/

/-- Calls of the pin I/O primitives, in the order they are made. -/
inductive Event where
  | pinMode (pin : Nat) (output : Bool)
  | digitalWrite (pin : Nat) (level : Bool)
  | analogWrite (pin : Nat) (val : Int)
  deriving DecidableEq, Repr

/-- State of the program and of the pins it drives.
`compare` is the global `int compare`; `count` and `high` are the two
function-scoped statics of the interrupt handler. -/
structure State where
  compare : Int
  count : Int
  high : Bool
  /-- Level last written to each digital pin (`true` is `HIGH`). -/
  level : Nat → Bool
  /-- Duty value last written to each pin by `analogWrite`. -/
  analog : Nat → Int
  /-- Direction of each pin (`true` is `OUTPUT`). -/
  output : Nat → Bool
  OCR0A : Nat
  TIMSK0 : Nat
  /-- The I/O calls made so far, oldest first. -/
  trace : List Event

/-- State after reset: the initialisers of the source (`compare = 12`,
`count = 0`, `high = false`), all port latches low, all pins inputs. -/
def boot : State :=
  { compare := 12, count := 0, high := false,
    level := fun _ => false, analog := fun _ => 0, output := fun _ => false,
    OCR0A := 0, TIMSK0 := 0, trace := [] }

/-- Primitive `pinMode(pin, mode)`. -/
def pinMode (pin : Nat) (out : Bool) (s : State) : State :=
  { s with output := Function.update s.output pin out,
           trace := s.trace ++ [Event.pinMode pin out] }

/-- Primitive `digitalWrite(pin, val)`: the pin is driven `LOW` when `val` is
zero and `HIGH` otherwise; here `val` has already been tested against zero. -/
def digitalWrite (pin : Nat) (val : Bool) (s : State) : State :=
  { s with level := Function.update s.level pin val,
           trace := s.trace ++ [Event.digitalWrite pin val] }

/-- Primitive `analogWrite(pin, val)`. -/
def analogWrite (pin : Nat) (val : Int) (s : State) : State :=
  { s with analog := Function.update s.analog pin val,
           trace := s.trace ++ [Event.analogWrite pin val] }

/-- The assignment `compare = v` made by a caller: the value is converted to
the 16-bit `int` that `compare` is declared as (line 41). -/
def store_compare (v : Int) (s : State) : State :=
  { s with compare := toInt16 v }

/-! ## The driver functions -/

/-- Source `drv8825::set_mode(byte mode)`, lines 92-97.  The argument is
converted to `byte` when the call is made. -/
def set_mode (level : Int) (s : State) : State :=
  let mode : Nat := toByte level
  let mode : Nat := if mode > 5 then 5 else mode
  let s := digitalWrite PIN_MODE0 (bitRead mode 0 != 0) s
  let s := digitalWrite PIN_MODE1 (bitRead mode 1 != 0) s
  digitalWrite PIN_MODE2 (bitRead mode 2 != 0) s

/-- The value passed to `analogWrite` by `set_current`, lines 106-110, for the
value `current` of its `int` parameter. -/
def current_level (current : Int) : Int :=
  let current := if current < CURRENT_MIN then 0 else current
  let current := if current > CURRENT_MAX then CURRENT_MAX else current
  let voltage : Int := mulSenseToInt (current * 5)
  let voltage_output : Int := toInt16 (map voltage 0 5 0 255)
  voltage_output

/-- Source `drv8825::set_current(int current)`, lines 105-113.  The argument
is converted to the 16-bit `int` parameter when the call is made. -/
def set_current (amps : Int) (s : State) : State :=
  analogWrite PIN_VREF (current_level (toInt16 amps)) s

/-- Source `drv8825::set_enable(bool state)`, lines 121-123. -/
def set_enable (state : Bool) (s : State) : State :=
  digitalWrite PIN_ENABLE (!state) s

/-- Source `drv8825::setup()`, lines 49-77. -/
def setup (s : State) : State :=
  let s := pinMode PIN_FAULT false s
  let s := pinMode PIN_HOME false s
  let s := pinMode PIN_DECAY true s
  let s := pinMode PIN_ENABLE true s
  let s := pinMode PIN_VREF true s
  let s := pinMode PIN_STEP true s
  let s := pinMode PIN_DIR true s
  let s := pinMode PIN_RESET true s
  let s := pinMode PIN_SLEEP true s
  let s := pinMode PIN_MODE0 true s
  let s := pinMode PIN_MODE1 true s
  let s := pinMode PIN_MODE2 true s
  let s := digitalWrite PIN_RESET true s
  let s := digitalWrite PIN_SLEEP true s
  let s := digitalWrite PIN_ENABLE true s
  let s := set_mode DEFAULT_MODE s
  let s := set_current DEFAULT_CURRENT s
  { s with OCR0A := 0xAA, TIMSK0 := s.TIMSK0 ||| 2 }

/-- Source `SIGNAL(TIMER0_COMPA_vect)`, lines 125-140: one tick of the
pulse engine. -/
def TIMER0_COMPA_vect (s : State) : State :=
  if s.compare < COUNT_STOP then
    let count := toInt16 (s.count + 1)
    if count > s.compare then
      let s1 := digitalWrite PIN_STEP (!s.high) s
      { s1 with high := !s.high, count := 0 }
    else
      { s with count := count }
  else s

/-- The state after `n` consecutive ticks with no other code in between. -/
def ticks : Nat → State → State
  | 0, s => s
  | n + 1, s => TIMER0_COMPA_vect (ticks n s)

/-- Number of writes to `PIN_STEP` in a trace. -/
def stepWrites (tr : List Event) : Nat :=
  (tr.filter (fun e => match e with
    | Event.digitalWrite p _ => p == PIN_STEP
    | _ => false)).length

/-- The writes made by `k` successive toggles when the flag is `h` before
the first of them. -/
def toggleEvents : Nat → Bool → List Event
  | 0, _ => []
  | k + 1, h => Event.digitalWrite PIN_STEP (!h) :: toggleEvents k (!h)

/-- The flag after `k` toggles when it is `h` before the first of them. -/
def flipN : Nat → Bool → Bool
  | 0, h => h
  | k + 1, h => flipN k (!h)

/-- Ticks with threshold changes in between: before each tick the caller
assigns the next value of the list to `compare`. -/
def ticks_with : List Int → State → State
  | [], s => s
  | T :: Ts, s => ticks_with Ts (TIMER0_COMPA_vect (store_compare T s))

/-- The levels written to `PIN_STEP` in a trace, oldest first. -/
def stepLevels (tr : List Event) : List Bool :=
  tr.filterMap (fun e => match e with
    | Event.digitalWrite p v => if p = PIN_STEP then some v else none
    | _ => none)

/-- The level the specification gives for a current setpoint, over the
rationals: `round((c*5*0.2) / 5 * 255)` with `c` the setpoint clamped to
`[0, CURRENT_MAX]`. -/
def current_level_spec (amps : Int) : Int :=
  let c : ℚ := max 0 (min (amps : ℚ) 2)
  round ((c * 5 * 0.2) / 5 * 255)

/-! ## Machine arithmetic: basic facts -/

theorem toInt16_le_max (x : Int) : toInt16 x ≤ 32767 := by
  unfold toInt16; omega

theorem toInt16_ge_min (x : Int) : -32768 ≤ toInt16 x := by
  unfold toInt16; omega

theorem toInt16_isInt16 (x : Int) : IsInt16 (toInt16 x) := by
  unfold IsInt16 INT_MIN INT_MAX
  exact ⟨toInt16_ge_min x, toInt16_le_max x⟩

theorem toInt16_of_isInt16 {x : Int} (h : IsInt16 x) : toInt16 x = x := by
  unfold IsInt16 INT_MIN INT_MAX at h
  unfold toInt16; omega

theorem isInt16_lt_COUNT_STOP {x : Int} (h : IsInt16 x) : x < COUNT_STOP := by
  unfold IsInt16 INT_MIN INT_MAX at h
  unfold COUNT_STOP; omega

theorem succ_div_mod (n T : Nat) :
    (n % (T + 1) = T → (n + 1) % (T + 1) = 0 ∧ (n + 1) / (T + 1) = n / (T + 1) + 1) ∧
    (n % (T + 1) ≠ T → (n + 1) % (T + 1) = n % (T + 1) + 1 ∧ (n + 1) / (T + 1) = n / (T + 1)) := by
  have hpos : 0 < T + 1 := Nat.succ_pos T
  have hdm := Nat.div_add_mod n (T + 1)
  have hlt := Nat.mod_lt n hpos
  constructor
  · intro h
    have := (Nat.div_mod_unique (a := n + 1) (c := 0) (d := n / (T + 1) + 1) hpos).mpr
      ⟨by rw [Nat.mul_add, Nat.mul_one]; omega, hpos⟩
    exact ⟨this.2, this.1⟩
  · intro h
    have := (Nat.div_mod_unique (a := n + 1) (c := n % (T + 1) + 1) (d := n / (T + 1)) hpos).mpr
      ⟨by omega, by omega⟩
    exact ⟨this.2, this.1⟩

theorem flipN_succ (k : Nat) (h : Bool) : flipN (k + 1) h = !(flipN k h) := by
  induction k generalizing h with
  | zero => rfl
  | succ k ih =>
    show flipN (k + 1) (!h) = !(flipN k (!h))
    exact ih (!h)

theorem toggleEvents_succ (k : Nat) (h : Bool) :
    toggleEvents (k + 1) h = toggleEvents k h ++ [Event.digitalWrite PIN_STEP (!(flipN k h))] := by
  induction k generalizing h with
  | zero => rfl
  | succ k ih =>
    show Event.digitalWrite PIN_STEP (!h) :: toggleEvents (k + 1) (!h) = _
    rw [ih (!h)]
    rfl

theorem stepWrites_append (a b : List Event) :
    stepWrites (a ++ b) = stepWrites a + stepWrites b := by
  simp [stepWrites, List.filter_append]

theorem stepWrites_toggleEvents (k : Nat) (h : Bool) : stepWrites (toggleEvents k h) = k := by
  induction k generalizing h with
  | zero => rfl
  | succ k ih =>
    show stepWrites ([Event.digitalWrite PIN_STEP (!h)] ++ toggleEvents k (!h)) = k + 1
    rw [stepWrites_append, ih (!h)]
    simp [stepWrites, Nat.add_comm]

/-! ## One tick -/

/-- A tick that does not reach the threshold only increments the counter. -/
theorem tick_count_up (s : State) (h1 : IsInt16 s.compare) (h2 : -32768 ≤ s.count)
    (h3 : s.count + 1 ≤ s.compare) :
    TIMER0_COMPA_vect s = { s with count := s.count + 1 } := by
  have hlt := isInt16_lt_COUNT_STOP h1
  unfold IsInt16 INT_MIN INT_MAX at h1
  have hw : toInt16 (s.count + 1) = s.count + 1 := by unfold toInt16; omega
  unfold TIMER0_COMPA_vect
  simp only [hlt, if_true, hw]
  rw [if_neg (by omega)]

/-- A tick on which the incremented counter exceeds the threshold toggles the
step output, flips the flag and clears the counter. -/
theorem tick_toggle (s : State) (h1 : IsInt16 s.compare) (h2 : s.count ≤ 32766)
    (h3 : s.compare < s.count + 1) :
    TIMER0_COMPA_vect s =
      { digitalWrite PIN_STEP (!s.high) s with high := !s.high, count := 0 } := by
  have hlt := isInt16_lt_COUNT_STOP h1
  unfold IsInt16 INT_MIN INT_MAX at h1
  have hw : toInt16 (s.count + 1) = s.count + 1 := by unfold toInt16; omega
  unfold TIMER0_COMPA_vect
  simp only [hlt, if_true, hw]
  rw [if_pos (by omega)]

/-- With `compare` at `INT_MAX` a tick never writes the step output: no
`int` is larger than `compare`. -/
theorem tick_int_max (s : State) (h : s.compare = 32767) :
    TIMER0_COMPA_vect s = { s with count := toInt16 (s.count + 1) } := by
  have hle := toInt16_le_max (s.count + 1)
  unfold TIMER0_COMPA_vect
  rw [h]
  simp only [COUNT_STOP]
  rw [if_pos (by omega), if_neg (by omega)]

theorem ticks_succ (n : Nat) (s : State) :
    ticks (n + 1) s = TIMER0_COMPA_vect (ticks n s) := rfl

/-- With `compare` at `INT_MAX` no number of ticks writes the step output. -/
theorem ticks_int_max_silent (s : State) (h : s.compare = 32767) (n : Nat) :
    (ticks n s).compare = 32767 ∧ (ticks n s).trace = s.trace ∧
      (ticks n s).level = s.level ∧ (ticks n s).high = s.high := by
  induction n with
  | zero => exact ⟨h, rfl, rfl, rfl⟩
  | succ n ih =>
    obtain ⟨hc, ht, hl, hh⟩ := ih
    rw [ticks_succ, tick_int_max _ hc]
    exact ⟨hc, ht, hl, hh⟩

/-! ## Runs of ticks under a threshold that `count` can exceed -/

/-- While the counter stays at or below the threshold, `n` ticks only add
`n` to the counter. -/
theorem ticks_count_up (n : Nat) (s : State) (h1 : IsInt16 s.compare)
    (h2 : -32768 ≤ s.count) (h3 : s.count + n ≤ s.compare) :
    ticks n s = { s with count := s.count + n } := by
  induction n with
  | zero => simp [ticks]
  | succ n ih =>
    have ihn := ih (by push_cast at h3; omega)
    rw [ticks_succ, ihn]
    rw [tick_count_up { s with count := s.count + (n : Int) } h1
      (by show -32768 ≤ s.count + (n : Int); omega)
      (by show s.count + (n : Int) + 1 ≤ s.compare; push_cast at h3; omega)]
    show ({ s with count := s.count + (n : Int) + 1 } : State) = _
    push_cast
    rw [Int.add_assoc]

/-- Cadence under a constant threshold `T` with `T + 1` representable:
from a zero counter, after `n` ticks the counter is `n mod (T+1)` and
exactly `n / (T+1)` toggles have been written, alternating from the
inverse of the initial flag. -/
theorem ticks_cadence (T n : Nat) (s : State) (hT : T ≤ 32766)
    (hc : s.compare = (T : Int)) (h0 : s.count = 0) :
    (ticks n s).compare = (T : Int) ∧
    (ticks n s).count = ((n % (T + 1) : Nat) : Int) ∧
    (ticks n s).high = flipN (n / (T + 1)) s.high ∧
    (ticks n s).trace = s.trace ++ toggleEvents (n / (T + 1)) s.high := by
  induction n with
  | zero =>
    refine ⟨hc, ?_, ?_, ?_⟩
    · simpa [ticks] using h0
    · simp [ticks, flipN]
    · simp [ticks, toggleEvents]
  | succ n ih =>
    obtain ⟨ic, icnt, ihigh, itr⟩ := ih
    have hint : IsInt16 (ticks n s).compare := by
      rw [ic]; unfold IsInt16 INT_MIN INT_MAX; omega
    have hlt := Nat.mod_lt n (Nat.succ_pos T)
    have hsd := succ_div_mod n T
    rw [ticks_succ]
    generalize n % (T + 1) = r at icnt hlt hsd
    by_cases hm : r = T
    · obtain ⟨hmod, hdiv⟩ := hsd.1 hm
      rw [tick_toggle (ticks n s) hint (by rw [icnt]; omega) (by rw [ic, icnt]; omega)]
      rw [hmod, hdiv, flipN_succ, toggleEvents_succ]
      refine ⟨ic, rfl, ?_, ?_⟩
      · show (!(ticks n s).high) = _
        rw [ihigh]
      · show (ticks n s).trace ++ [Event.digitalWrite PIN_STEP (!(ticks n s).high)] = _
        rw [itr, ihigh, List.append_assoc]
    · obtain ⟨hmod, hdiv⟩ := hsd.2 hm
      rw [tick_count_up (ticks n s) hint (by rw [icnt]; omega) (by rw [ic, icnt]; omega)]
      rw [hmod, hdiv]
      refine ⟨ic, ?_, ihigh, itr⟩
      show (ticks n s).count + 1 = _
      rw [icnt]; push_cast; rfl

/-- The step line follows the flag: a tick preserves `level PIN_STEP = high`. -/
theorem tick_level_high (s : State) (h : s.level PIN_STEP = s.high) :
    (TIMER0_COMPA_vect s).level PIN_STEP = (TIMER0_COMPA_vect s).high := by
  by_cases hstop : s.compare < COUNT_STOP
  · by_cases hgt : toInt16 (s.count + 1) > s.compare
    · simp [TIMER0_COMPA_vect, hstop, hgt, digitalWrite]
    · simp [TIMER0_COMPA_vect, hstop, hgt, h]
  · simp [TIMER0_COMPA_vect, hstop, h]

theorem ticks_level_high (n : Nat) (s : State) (h : s.level PIN_STEP = s.high) :
    (ticks n s).level PIN_STEP = (ticks n s).high := by
  induction n with
  | zero => exact h
  | succ n ih => rw [ticks_succ]; exact tick_level_high _ ih

/-- Under the hypotheses of `ticks_cadence`, the number of writes to the step
output after `n` ticks. -/
theorem stepWrites_ticks (T n : Nat) (s : State) (hT : T ≤ 32766)
    (hc : s.compare = (T : Int)) (h0 : s.count = 0) :
    stepWrites (ticks n s).trace = stepWrites s.trace + n / (T + 1) := by
  rw [(ticks_cadence T n s hT hc h0).2.2.2, stepWrites_append, stepWrites_toggleEvents]

theorem succ_div_eq_iff_dvd (n T : Nat) :
    (n + 1) / (T + 1) = n / (T + 1) + 1 ↔ (T + 1) ∣ (n + 1) := by
  have h := succ_div_mod n T
  rw [Nat.dvd_iff_mod_eq_zero]
  by_cases hm : n % (T + 1) = T
  · obtain ⟨h1, h2⟩ := h.1 hm
    exact ⟨fun _ => h1, fun _ => h2⟩
  · obtain ⟨h1, h2⟩ := h.2 hm
    constructor
    · intro h3; rw [h2] at h3; exact absurd h3 (Nat.ne_of_lt (Nat.lt_succ_self _))
    · intro h3; rw [h1] at h3; exact absurd h3 (Nat.succ_ne_zero _)

/-! ## One tick from an arbitrary state -/

/-- After a tick under a non-negative threshold the counter is at most the
threshold, whatever the counter was. -/
theorem tick_count_le (s : State) (h1 : IsInt16 s.compare) (h2 : 0 ≤ s.compare) :
    (TIMER0_COMPA_vect s).count ≤ s.compare := by
  have hlt := isInt16_lt_COUNT_STOP h1
  by_cases hgt : toInt16 (s.count + 1) > s.compare
  · simp [TIMER0_COMPA_vect, hlt, hgt, digitalWrite, h2]
  · simp only [TIMER0_COMPA_vect, hlt, if_true, hgt, if_false]
    exact Int.not_lt.mp hgt

/-- A tick from a counter between 0 and 32766 leaves a non-negative counter. -/
theorem tick_count_nonneg (s : State) (h1 : IsInt16 s.compare) (h2 : 0 ≤ s.count)
    (h3 : s.count ≤ 32766) : 0 ≤ (TIMER0_COMPA_vect s).count := by
  have hlt := isInt16_lt_COUNT_STOP h1
  have hw : toInt16 (s.count + 1) = s.count + 1 := by unfold toInt16; omega
  by_cases hgt : toInt16 (s.count + 1) > s.compare
  · simp [TIMER0_COMPA_vect, hlt, hgt, digitalWrite]
  · simp only [TIMER0_COMPA_vect, hlt, if_true, hgt, if_false]
    rw [hw]
    omega

/-- A tick either leaves flag, pin levels and trace alone, or writes the new
value of the flag to the step output and flips the flag. -/
theorem tick_cases (s : State) :
    ((TIMER0_COMPA_vect s).trace = s.trace ∧ (TIMER0_COMPA_vect s).high = s.high ∧
      (TIMER0_COMPA_vect s).level = s.level) ∨
    ((TIMER0_COMPA_vect s).trace =
        s.trace ++ [Event.digitalWrite PIN_STEP (TIMER0_COMPA_vect s).high] ∧
      (TIMER0_COMPA_vect s).high = (!s.high) ∧
      (TIMER0_COMPA_vect s).level PIN_STEP = (TIMER0_COMPA_vect s).high ∧
      (TIMER0_COMPA_vect s).count = 0) := by
  by_cases hstop : s.compare < COUNT_STOP
  · by_cases hgt : toInt16 (s.count + 1) > s.compare
    · right
      simp [TIMER0_COMPA_vect, hstop, hgt, digitalWrite]
    · left
      simp [TIMER0_COMPA_vect, hstop, hgt]
  · left
    simp [TIMER0_COMPA_vect, hstop]

theorem ticks_with_append (Ts : List Int) (T : Int) (s : State) :
    ticks_with (Ts ++ [T]) s = TIMER0_COMPA_vect (store_compare T (ticks_with Ts s)) := by
  induction Ts generalizing s with
  | nil => rfl
  | cons x Ts ih => exact ih _

/-- Whatever thresholds are assigned between the ticks, the writes made are
successive toggles starting from the initial flag. -/
theorem ticks_with_toggles (Ts : List Int) (s : State) :
    ∃ k : Nat, (ticks_with Ts s).trace = s.trace ++ toggleEvents k s.high ∧
      (ticks_with Ts s).high = flipN k s.high := by
  induction Ts generalizing s with
  | nil => exact ⟨0, by simp [ticks_with, toggleEvents], rfl⟩
  | cons T Ts ih =>
    obtain ⟨k, hk1, hk2⟩ := ih (TIMER0_COMPA_vect (store_compare T s))
    have hs : (store_compare T s).trace = s.trace ∧ (store_compare T s).high = s.high :=
      ⟨rfl, rfl⟩
    rcases tick_cases (store_compare T s) with ⟨h1, h2, _⟩ | ⟨h1, h2, _, _⟩
    · refine ⟨k, ?_, ?_⟩
      · show (ticks_with Ts (TIMER0_COMPA_vect (store_compare T s))).trace = _
        rw [hk1, h1, h2, hs.1, hs.2]
      · show (ticks_with Ts (TIMER0_COMPA_vect (store_compare T s))).high = _
        rw [hk2, h2, hs.2]
    · refine ⟨k + 1, ?_, ?_⟩
      · show (ticks_with Ts (TIMER0_COMPA_vect (store_compare T s))).trace = _
        rw [hk1, h1, h2, hs.1, hs.2, List.append_assoc]
        rfl
      · show (ticks_with Ts (TIMER0_COMPA_vect (store_compare T s))).high = _
        rw [hk2, h2, hs.2]
        rfl

/-- The levels written by successive toggles alternate. -/
theorem stepLevels_toggleEvents_chain (k : Nat) (h : Bool) :
    List.Chain' (fun a b => a ≠ b) (stepLevels (toggleEvents k h)) := by
  induction k generalizing h with
  | zero => simp [toggleEvents, stepLevels]
  | succ k ih =>
    have e : stepLevels (toggleEvents (k + 1) h) = (!h) :: stepLevels (toggleEvents k (!h)) :=
      rfl
    rw [e, List.chain'_cons']
    refine ⟨?_, ih (!h)⟩
    intro y hy
    cases k with
    | zero => simp [toggleEvents, stepLevels] at hy
    | succ k =>
      simp [toggleEvents, stepLevels] at hy
      subst hy
      cases h <;> simp

/-! ## The configuration setters -/

theorem current_level_clamp (amps : Int) :
    current_level amps = current_level (max CURRENT_MIN (min amps CURRENT_MAX)) := by
  unfold CURRENT_MIN CURRENT_MAX
  rcases lt_or_le amps 0 with h | h
  · have e : max (0 : Int) (min amps 2) = 0 := by omega
    rw [e]
    simp [current_level, CURRENT_MIN, CURRENT_MAX, h]
  · rcases lt_or_le 2 amps with h2 | h2
    · have e : max (0 : Int) (min amps 2) = 2 := by omega
      rw [e]
      have hn : ¬ amps < 0 := by omega
      simp [current_level, CURRENT_MIN, CURRENT_MAX, hn, h2]
    · have e : max (0 : Int) (min amps 2) = amps := by omega
      rw [e]

theorem current_level_eq_spec (amps : Int) : current_level amps = current_level_spec amps := by
  have hs : current_level_spec amps = current_level_spec (max 0 (min amps 2)) := by
    unfold current_level_spec
    rcases lt_or_le amps 0 with h | h
    · have e : max (0 : Int) (min amps 2) = 0 := by omega
      have hq : (amps : ℚ) < 0 := by exact_mod_cast h
      have eq : max (0 : ℚ) (min (amps : ℚ) 2) = 0 := by
        rw [min_eq_left (by linarith), max_eq_left (by linarith)]
      rw [e, eq]; norm_num
    · rcases lt_or_le 2 amps with h2 | h2
      · have e : max (0 : Int) (min amps 2) = 2 := by omega
        have hq : (2 : ℚ) < amps := by exact_mod_cast h2
        have eq : max (0 : ℚ) (min (amps : ℚ) 2) = 2 := by
          rw [min_eq_right (by linarith), max_eq_right (by linarith)]
        rw [e, eq]; norm_num
      · have e : max (0 : Int) (min amps 2) = amps := by omega
        rw [e]
  rw [current_level_clamp, hs]
  unfold CURRENT_MIN CURRENT_MAX
  have hlo : 0 ≤ max (0 : Int) (min amps 2) := by omega
  have hhi : max (0 : Int) (min amps 2) ≤ 2 := by omega
  generalize max (0 : Int) (min amps 2) = c at hlo hhi
  interval_cases c
  · have : current_level 0 = 0 := by decide
    rw [this]; unfold current_level_spec; norm_num
  · have : current_level 1 = 51 := by decide
    rw [this]; unfold current_level_spec; norm_num
  · have : current_level 2 = 102 := by decide
    rw [this]; unfold current_level_spec; norm_num

/-! ## Claims -/

/-- C1 (counterexample). The threshold 32767 is non-negative, below the stop
value 65535 and held in `compare`, with counter 0 and flag false; tick number
32768 is a multiple of `T + 1 = 32768`, yet it does not toggle the step
output: there are as many writes after it as before it, namely none. -/
theorem C1_cadence_breaks_at_int_max :
    (0 : Int) ≤ 32767 ∧ (32767 : Int) < COUNT_STOP ∧
    (store_compare 32767 boot).compare = 32767 ∧
    (store_compare 32767 boot).count = 0 ∧
    (store_compare 32767 boot).high = false ∧
    (32767 + 1) ∣ 32768 ∧
    stepWrites (ticks 32768 (store_compare 32767 boot)).trace =
      stepWrites (ticks 32767 (store_compare 32767 boot)).trace ∧
    stepWrites (ticks 32768 (store_compare 32767 boot)).trace = 0 := by
  have h1 := (ticks_int_max_silent (store_compare 32767 boot) (by decide) 32768).2.1
  have h2 := (ticks_int_max_silent (store_compare 32767 boot) (by decide) 32767).2.1
  rw [h1, h2]
  decide

/-- C1 (amended). For every threshold `T` from 0 to 32766 held constant in
`compare`, starting from counter 0: tick number `n + 1` toggles the step
output if and only if `n + 1` is a multiple of `T + 1`; after `n` ticks
exactly `n / (T + 1)` toggles have occurred and the counter is
`n mod (T + 1)`. -/
theorem C1_cadence (T n : Nat) (s : State) (hT : T ≤ 32766)
    (hc : s.compare = (T : Int)) (h0 : s.count = 0) :
    (stepWrites (ticks (n + 1) s).trace = stepWrites (ticks n s).trace + 1 ↔
      (T + 1) ∣ (n + 1)) ∧
    (stepWrites (ticks (n + 1) s).trace = stepWrites (ticks n s).trace ↔
      ¬ (T + 1) ∣ (n + 1)) ∧
    stepWrites (ticks n s).trace = stepWrites s.trace + n / (T + 1) ∧
    (ticks n s).count = ((n % (T + 1) : Nat) : Int) := by
  have hn := stepWrites_ticks T n s hT hc h0
  have hn1 := stepWrites_ticks T (n + 1) s hT hc h0
  have hd := succ_div_eq_iff_dvd n T
  have hsd := succ_div_mod n T
  refine ⟨?_, ?_, hn, (ticks_cadence T n s hT hc h0).2.1⟩
  · rw [hn, hn1, ← hd]
    omega
  · rw [hn, hn1, ← hd]
    by_cases hm : n % (T + 1) = T
    · have := (hsd.1 hm).2
      omega
    · have := (hsd.2 hm).2
      omega

/-- Instance of the cadence theorem: threshold 12 from start-up, 30 ticks. -/
theorem C1_cadence_witness :
    (12 : Nat) ≤ 32766 ∧ boot.compare = ((12 : Nat) : Int) ∧ boot.count = 0 ∧
    stepWrites (ticks 30 boot).trace = stepWrites boot.trace + 30 / (12 + 1) ∧
    (ticks 30 boot).count = ((30 % (12 + 1) : Nat) : Int) :=
  ⟨by decide, rfl, rfl, (C1_cadence 12 30 boot (by decide) rfl rfl).2.2⟩

/-- C2 (evaluation at the failing input). Whatever value is assigned to
`compare`, the guard `compare < COUNT_STOP` holds afterwards; assigning the
stop value 65535 leaves -1 in `compare`, and from the start-up state the next
three ticks write HIGH, LOW, HIGH to the step output instead of leaving it
untouched. -/
theorem C2_stop_value_does_not_stop :
    (∀ (v : Int) (s : State), (store_compare v s).compare < COUNT_STOP) ∧
    (store_compare COUNT_STOP boot).compare = -1 ∧
    (ticks 3 (store_compare COUNT_STOP boot)).trace =
      [Event.digitalWrite PIN_STEP true, Event.digitalWrite PIN_STEP false,
       Event.digitalWrite PIN_STEP true] ∧
    (ticks 1 (store_compare COUNT_STOP boot)).level PIN_STEP ≠ boot.level PIN_STEP := by
  refine ⟨?_, by decide, by decide, by decide⟩
  intro v s
  exact isInt16_lt_COUNT_STOP (toInt16_isInt16 v)

/-- C3. For every level from 0 to 5, `set_mode` makes exactly three digital
writes, to PIN_MODE0, PIN_MODE1 and PIN_MODE2 in this order, carrying bit 0,
bit 1 and bit 2 of the level, and afterwards MODE0 + 2*MODE1 + 4*MODE2 is the
level. -/
theorem C3_set_mode_encoding (level : Int) (s : State) (h0 : 0 ≤ level) (h5 : level ≤ 5) :
    (set_mode level s).trace = s.trace ++
      [Event.digitalWrite PIN_MODE0 (level.toNat.testBit 0),
       Event.digitalWrite PIN_MODE1 (level.toNat.testBit 1),
       Event.digitalWrite PIN_MODE2 (level.toNat.testBit 2)] ∧
    (((set_mode level s).level PIN_MODE0).toNat
      + 2 * ((set_mode level s).level PIN_MODE1).toNat
      + 4 * ((set_mode level s).level PIN_MODE2).toNat : Int) = level := by
  interval_cases level <;>
    refine ⟨?_, ?_⟩ <;>
    simp [set_mode, digitalWrite, toByte, bitRead, Function.update,
      PIN_MODE0, PIN_MODE1, PIN_MODE2, Nat.testBit]

/-- Instance of the encoding theorem at level 3. -/
theorem C3_set_mode_encoding_witness :
    (0 : Int) ≤ 3 ∧ (3 : Int) ≤ 5 ∧
    (set_mode 3 boot).trace =
      [Event.digitalWrite PIN_MODE0 true, Event.digitalWrite PIN_MODE1 true,
       Event.digitalWrite PIN_MODE2 false] ∧
    (((set_mode 3 boot).level PIN_MODE0).toNat
      + 2 * ((set_mode 3 boot).level PIN_MODE1).toNat
      + 4 * ((set_mode 3 boot).level PIN_MODE2).toNat : Int) = 3 :=
  ⟨by decide, by decide, C3_set_mode_encoding 3 boot (by decide) (by decide)⟩

/-- C4 (counterexample). The integer 256 is greater than 5, but
`set_mode(256)` receives the byte 0 and drives the three mode lines LOW,
whereas `set_mode(5)` drives MODE0 and MODE2 HIGH. -/
theorem C4_set_mode_256_differs :
    (5 : Int) < 256 ∧
    (set_mode 256 boot).trace =
      [Event.digitalWrite PIN_MODE0 false, Event.digitalWrite PIN_MODE1 false,
       Event.digitalWrite PIN_MODE2 false] ∧
    (set_mode 5 boot).trace =
      [Event.digitalWrite PIN_MODE0 true, Event.digitalWrite PIN_MODE1 false,
       Event.digitalWrite PIN_MODE2 true] ∧
    (set_mode 256 boot).trace ≠ (set_mode 5 boot).trace ∧
    (set_mode 256 boot).level PIN_MODE0 ≠ (set_mode 5 boot).level PIN_MODE0 := by
  decide

/-- C4 (amended). For every level greater than 5 that a byte can hold
(6 to 255), `set_mode(level)` leaves exactly the state that `set_mode(5)`
leaves, pin writes included: MODE0 = 1, MODE1 = 0, MODE2 = 1. -/
theorem C4_set_mode_clamp (level : Int) (s : State) (h5 : 5 < level) (h255 : level ≤ 255) :
    set_mode level s = set_mode 5 s ∧
    (set_mode level s).level PIN_MODE0 = true ∧
    (set_mode level s).level PIN_MODE1 = false ∧
    (set_mode level s).level PIN_MODE2 = true := by
  have hb : toByte level > 5 := by unfold toByte; omega
  have e : set_mode level s = set_mode 5 s := by
    unfold set_mode
    simp only [hb, if_true]
    rfl
  rw [e]
  refine ⟨rfl, ?_, ?_, ?_⟩ <;>
    simp [set_mode, digitalWrite, toByte, bitRead, Function.update,
      PIN_MODE0, PIN_MODE1, PIN_MODE2]

/-- Instance of the clamping theorem at level 200. -/
theorem C4_set_mode_clamp_witness :
    (5 : Int) < 200 ∧ (200 : Int) ≤ 255 ∧
    set_mode 200 boot = set_mode 5 boot ∧
    (set_mode 200 boot).level PIN_MODE0 = true ∧
    (set_mode 200 boot).level PIN_MODE1 = false ∧
    (set_mode 200 boot).level PIN_MODE2 = true :=
  ⟨by decide, by decide, C4_set_mode_clamp 200 boot (by decide) (by decide)⟩

/-- C5. For every setpoint that the `int` parameter of `set_current` holds,
the call makes one analog write, to the current-reference output, of the level
`round((c*5*0.2) / 5 * 255)` with `c` the setpoint clamped to
`[0, CURRENT_MAX]`; `set_current(1)` writes 51. -/
theorem C5_set_current_formula (amps : Int) (s : State) (h : IsInt16 amps) :
    (set_current amps s).trace =
      s.trace ++ [Event.analogWrite PIN_VREF (current_level_spec amps)] ∧
    (set_current amps s).analog PIN_VREF = current_level_spec amps ∧
    (set_current 1 s).analog PIN_VREF = 51 := by
  have h1 : current_level (toInt16 1) = 51 := by decide
  refine ⟨?_, ?_, ?_⟩
  · simp [set_current, analogWrite, toInt16_of_isInt16 h, current_level_eq_spec]
  · simp [set_current, analogWrite, toInt16_of_isInt16 h, current_level_eq_spec]
  · simp [set_current, analogWrite, h1]

/-- Instance of the formula theorem at 2 A: the level is 102. -/
theorem C5_set_current_formula_witness :
    IsInt16 2 ∧
    (set_current 2 boot).trace = [Event.analogWrite PIN_VREF (current_level_spec 2)] ∧
    (set_current 2 boot).analog PIN_VREF = 102 := by
  have h := C5_set_current_formula 2 boot (by decide)
  refine ⟨by decide, h.1, ?_⟩
  simp [set_current, analogWrite]
  decide

/-- C6 (counterexample). The setpoint 40000 is above `CURRENT_MAX`, but the
`int` parameter receives -25536, which is clamped to 0: `set_current(40000)`
writes the level 0 whereas `set_current(CURRENT_MAX)` writes 102. -/
theorem C6_set_current_40000_differs :
    CURRENT_MAX < 40000 ∧
    (set_current 40000 boot).trace = [Event.analogWrite PIN_VREF 0] ∧
    (set_current CURRENT_MAX boot).trace = [Event.analogWrite PIN_VREF 102] ∧
    (set_current 40000 boot).analog PIN_VREF ≠
      (set_current (max CURRENT_MIN (min 40000 CURRENT_MAX)) boot).analog PIN_VREF := by
  decide

/-- C6 (amended). For every setpoint that the `int` parameter holds
(-32768 to 32767), `set_current(amps)` leaves the same state, and so writes
the same analog level, as `set_current` of the setpoint clamped to
`[0, CURRENT_MAX]`: as `set_current(0)` below zero and as
`set_current(CURRENT_MAX)` above `CURRENT_MAX`. -/
theorem C6_set_current_clamp (amps : Int) (s : State) (h : IsInt16 amps) :
    set_current amps s = set_current (max CURRENT_MIN (min amps CURRENT_MAX)) s ∧
    (amps < 0 → set_current amps s = set_current 0 s) ∧
    (CURRENT_MAX < amps → set_current amps s = set_current CURRENT_MAX s) := by
  have key : ∀ b : Int, IsInt16 b → current_level amps = current_level b →
      set_current amps s = set_current b s := by
    intro b hb hab
    unfold set_current
    rw [toInt16_of_isInt16 h, toInt16_of_isInt16 hb, hab]
  refine ⟨?_, ?_, ?_⟩
  · apply key _ _ (current_level_clamp amps)
    unfold IsInt16 INT_MIN INT_MAX CURRENT_MIN CURRENT_MAX; omega
  · intro hneg
    apply key 0 (by decide)
    rw [current_level_clamp]
    have e : max CURRENT_MIN (min amps CURRENT_MAX) = 0 := by
      unfold CURRENT_MIN CURRENT_MAX; omega
    rw [e]
  · intro hbig
    apply key CURRENT_MAX (by decide)
    rw [current_level_clamp]
    have e : max CURRENT_MIN (min amps CURRENT_MAX) = CURRENT_MAX := by
      unfold CURRENT_MIN CURRENT_MAX at *; omega
    rw [e]

/-- Instances of the clamping theorem at -3 and at 7. -/
theorem C6_set_current_clamp_witness :
    IsInt16 (-3) ∧ (-3 : Int) < 0 ∧ IsInt16 7 ∧ CURRENT_MAX < 7 ∧
    set_current (-3) boot = set_current 0 boot ∧
    set_current 7 boot = set_current CURRENT_MAX boot :=
  ⟨by decide, by decide, by decide, by decide,
   (C6_set_current_clamp (-3) boot (by decide)).2.1 (by decide),
   (C6_set_current_clamp 7 boot (by decide)).2.2 (by decide)⟩

/-- C7. For every boolean `state`, `set_enable(state)` makes one digital
write, of the inverse of `state`, to PIN_ENABLE; `set_enable(true)` leaves the
enable line LOW and a following `set_enable(false)` leaves it HIGH. -/
theorem C7_set_enable_polarity (state : Bool) (s : State) :
    (set_enable state s).trace = s.trace ++ [Event.digitalWrite PIN_ENABLE (!state)] ∧
    (set_enable state s).level PIN_ENABLE = (!state) ∧
    (set_enable true s).level PIN_ENABLE = false ∧
    (set_enable false (set_enable true s)).level PIN_ENABLE = true := by
  simp [set_enable, digitalWrite]

/-- C8 (counterexample). First, the counter is 3, reached from start-up under
threshold 12, when the threshold is changed to 32767, a value below the stop
value 65535: the tick `max 1 (32767 + 1 - 3) = 32765` announced for the next
toggle writes nothing. Second, the counter is 32767, reached under threshold
32767, when the threshold is changed to 5: the tick
`max 1 (5 + 1 - 32767) = 1` writes nothing, the counter having wrapped to
-32768. -/
theorem C8_next_toggle_missing_at_int_max :
    (ticks 3 boot).count = 3 ∧ (ticks 3 boot).compare = 12 ∧
    (store_compare 32767 (ticks 3 boot)).compare = 32767 ∧
    max 1 (32767 + 1 - 3) = 32765 ∧
    stepWrites (ticks 32765 (store_compare 32767 (ticks 3 boot))).trace = 0 ∧
    (store_compare 5 (ticks 32767 (store_compare 32767 boot))).count = 32767 ∧
    (store_compare 5 (ticks 32767 (store_compare 32767 boot))).compare = 5 ∧
    max 1 (5 + 1 - 32767) = 1 ∧
    stepWrites (ticks 1 (store_compare 5 (ticks 32767 (store_compare 32767 boot)))).trace = 0 ∧
    (ticks 1 (store_compare 5 (ticks 32767 (store_compare 32767 boot)))).count = -32768 := by
  have h1 := (ticks_int_max_silent (store_compare 32767 (ticks 3 boot)) (by decide) 32765).2.1
  have hup := ticks_count_up 32767 (store_compare 32767 boot) (by decide) (by decide) (by decide)
  rw [h1, hup]
  decide

/-- C8 (amended). When the counter is `c` (at most 32766, whatever threshold
was in force before) and the threshold is changed to `T2` with
`0 ≤ T2 ≤ 32766` and held, the next toggle occurs on exactly tick
`max 1 (T2 + 1 - c)`: no earlier tick writes anything, and that tick writes
the inverse of the flag to the step output, flips the flag and clears the
counter. -/
theorem C8_next_toggle (T2 c : Nat) (s : State) (hT : T2 ≤ 32766) (hc : c ≤ 32766)
    (h1 : s.compare = (T2 : Int)) (h2 : s.count = (c : Int)) :
    (∀ j : Nat, j < max 1 (T2 + 1 - c) → (ticks j s).trace = s.trace) ∧
    (ticks (max 1 (T2 + 1 - c)) s).trace =
      s.trace ++ [Event.digitalWrite PIN_STEP (!s.high)] ∧
    (ticks (max 1 (T2 + 1 - c)) s).count = 0 ∧
    (ticks (max 1 (T2 + 1 - c)) s).high = (!s.high) := by
  have hint : IsInt16 s.compare := by
    rw [h1]; unfold IsInt16 INT_MIN INT_MAX; omega
  have hquiet : ∀ j : Nat, j < max 1 (T2 + 1 - c) →
      ticks j s = { s with count := s.count + j } := by
    intro j hj
    have hj' : (c : Int) + j ≤ T2 ∨ j = 0 := by omega
    rcases hj' with hle | hz
    · exact ticks_count_up j s hint (by rw [h2]; omega) (by rw [h1, h2]; exact hle)
    · subst hz; simp [ticks]
  obtain ⟨k, hk⟩ : ∃ k, max 1 (T2 + 1 - c) = k + 1 := ⟨max 1 (T2 + 1 - c) - 1, by omega⟩
  have hkT : (T2 : Int) < c + k + 1 := by omega
  have hkc : (c : Int) + k ≤ 32766 := by omega
  have hup := hquiet k (by omega)
  refine ⟨fun j hj => by rw [hquiet j hj], ?_⟩
  rw [hk, ticks_succ, hup]
  rw [tick_toggle { s with count := s.count + (k : Int) } hint
    (by show s.count + (k : Int) ≤ 32766; rw [h2]; exact hkc)
    (by show s.compare < s.count + (k : Int) + 1; rw [h1, h2]; exact hkT)]
  exact ⟨rfl, rfl, rfl⟩

/-- Instance of the next-toggle theorem: counter 3 under threshold 12, then
threshold 5. -/
theorem C8_next_toggle_witness :
    (5 : Nat) ≤ 32766 ∧ (3 : Nat) ≤ 32766 ∧
    (store_compare 5 (ticks 3 boot)).compare = ((5 : Nat) : Int) ∧
    (store_compare 5 (ticks 3 boot)).count = ((3 : Nat) : Int) ∧
    (ticks (max 1 (5 + 1 - 3)) (store_compare 5 (ticks 3 boot))).trace =
      (store_compare 5 (ticks 3 boot)).trace ++
        [Event.digitalWrite PIN_STEP (!(store_compare 5 (ticks 3 boot)).high)] :=
  ⟨by decide, by decide, by decide, by decide,
   (C8_next_toggle 5 3 (store_compare 5 (ticks 3 boot)) (by decide) (by decide)
      (by decide) (by decide)).2.1⟩

/-- C9 (counterexample). With the threshold 32767, below the stop value
65535, held from the start-up state (counter 0, flag false, step line LOW),
the step level after `T + 1 = 32768` ticks is still LOW instead of the
inverse of the starting level. -/
theorem C9_half_period_missing_at_int_max :
    (32767 : Int) < COUNT_STOP ∧
    (store_compare 32767 boot).compare = 32767 ∧
    (store_compare 32767 boot).count = 0 ∧
    (store_compare 32767 boot).high = false ∧
    (store_compare 32767 boot).level PIN_STEP = false ∧
    (ticks (32767 + 1) (store_compare 32767 boot)).level PIN_STEP = false := by
  obtain ⟨_, _, hl, _⟩ := ticks_int_max_silent (store_compare 32767 boot) (by decide) (32767 + 1)
  rw [hl]
  decide

/-- C9 (amended). For every threshold `T` from 0 to 32766 held constant,
starting from counter 0 with the step line at the level of the flag (LOW and
false at start-up): after exactly `2*(T+1)` ticks the step level, the flag
and the counter equal their starting values; after exactly `T+1` ticks the
step level is the inverse of its starting level; and for no smaller positive
number of ticks are the counter and the flag both back at their starting
values, fewer than two toggles having occurred. -/
theorem C9_pulse_period (T : Nat) (s : State) (hT : T ≤ 32766)
    (hc : s.compare = (T : Int)) (h0 : s.count = 0) (hl : s.level PIN_STEP = s.high) :
    ((ticks (2 * (T + 1)) s).level PIN_STEP = s.level PIN_STEP ∧
      (ticks (2 * (T + 1)) s).high = s.high ∧ (ticks (2 * (T + 1)) s).count = s.count) ∧
    (ticks (T + 1) s).level PIN_STEP = (!s.level PIN_STEP) ∧
    ∀ n : Nat, 0 < n → n < 2 * (T + 1) →
      ((ticks n s).count ≠ s.count ∨ (ticks n s).high ≠ s.high) ∧
      stepWrites (ticks n s).trace < stepWrites s.trace + 2 := by
  have hpos : 0 < T + 1 := Nat.succ_pos T
  refine ⟨?_, ?_, ?_⟩
  · obtain ⟨_, hcnt, hhigh, _⟩ := ticks_cadence T (2 * (T + 1)) s hT hc h0
    rw [Nat.mul_div_left 2 hpos] at hhigh
    rw [Nat.mul_mod_left] at hcnt
    have hh : (ticks (2 * (T + 1)) s).high = s.high := by
      rw [hhigh]; simp [flipN]
    refine ⟨?_, hh, ?_⟩
    · rw [ticks_level_high _ s hl, hh, hl]
    · rw [hcnt, h0]; rfl
  · obtain ⟨_, _, hhigh, _⟩ := ticks_cadence T (T + 1) s hT hc h0
    rw [Nat.div_self hpos] at hhigh
    rw [ticks_level_high _ s hl, hhigh, hl]
    rfl
  · intro n hn0 hn2
    obtain ⟨_, hcnt, hhigh, htr⟩ := ticks_cadence T n s hT hc h0
    have hq : n / (T + 1) < 2 := (Nat.div_lt_iff_lt_mul hpos).mpr hn2
    have hdm := Nat.div_add_mod n (T + 1)
    generalize n / (T + 1) = q at hhigh htr hq hdm
    refine ⟨?_, ?_⟩
    · rcases Nat.lt_or_ge q 1 with h1 | h1
      · left
        have hz : q = 0 := Nat.lt_one_iff.mp h1
        rw [hz, Nat.mul_zero, Nat.zero_add] at hdm
        rw [hcnt, h0, hdm]
        exact_mod_cast Nat.pos_iff_ne_zero.mp hn0
      · right
        have ho : q = 1 := Nat.le_antisymm (Nat.lt_succ_iff.mp hq) h1
        rw [hhigh, ho]
        cases s.high <;> simp [flipN]
    · rw [htr, stepWrites_append, stepWrites_toggleEvents]
      exact Nat.add_lt_add_left hq _

/-- Instance of the period theorem: threshold 12 from start-up, with 13 as
the smaller number of ticks. -/
theorem C9_pulse_period_witness :
    (12 : Nat) ≤ 32766 ∧ boot.compare = ((12 : Nat) : Int) ∧ boot.count = 0 ∧
    boot.level PIN_STEP = boot.high ∧ 0 < 13 ∧ 13 < 2 * (12 + 1) ∧
    ((ticks (2 * (12 + 1)) boot).level PIN_STEP = boot.level PIN_STEP ∧
      (ticks (2 * (12 + 1)) boot).high = boot.high ∧
      (ticks (2 * (12 + 1)) boot).count = boot.count) ∧
    (ticks (12 + 1) boot).level PIN_STEP = (!boot.level PIN_STEP) ∧
    ((ticks 13 boot).count ≠ boot.count ∨ (ticks 13 boot).high ≠ boot.high) ∧
    stepWrites (ticks 13 boot).trace < stepWrites boot.trace + 2 :=
  ⟨by decide, rfl, rfl, rfl, by decide, by decide,
   (C9_pulse_period 12 boot (by decide) rfl rfl rfl).1,
   (C9_pulse_period 12 boot (by decide) rfl rfl rfl).2.1,
   (C9_pulse_period 12 boot (by decide) rfl rfl rfl).2.2 13 (by decide) (by decide)⟩

/-- C10 (evaluation at the failing input). From the start-up state, one tick
taken after the stop value 65535 has been assigned to `compare` writes HIGH to
the step output and sets the flag; re-arming with threshold 12 then gives LOW
as the next write, at tick 13, whereas arming with 12 directly from the
start-up state gives HIGH. -/
theorem C10_stopped_tick_changes_the_resumed_run :
    (ticks 1 (store_compare COUNT_STOP boot)).trace = [Event.digitalWrite PIN_STEP true] ∧
    (ticks 1 (store_compare COUNT_STOP boot)).high = true ∧
    (ticks 13 (store_compare 12 (ticks 1 (store_compare COUNT_STOP boot)))).trace =
      (ticks 1 (store_compare COUNT_STOP boot)).trace ++ [Event.digitalWrite PIN_STEP false] ∧
    (ticks 13 (store_compare 12 boot)).trace =
      boot.trace ++ [Event.digitalWrite PIN_STEP true] := by
  decide

/-- C11. After `setup()`, whatever the pin levels were before, PIN_RESET and
PIN_SLEEP are HIGH and PIN_ENABLE holds the level that `set_enable(false)`
writes, which is HIGH. -/
theorem C11_setup_powered_and_disabled (s : State) :
    (setup s).level PIN_RESET = true ∧
    (setup s).level PIN_SLEEP = true ∧
    (setup s).level PIN_ENABLE = (set_enable false s).level PIN_ENABLE ∧
    (setup s).level PIN_ENABLE = true := by
  simp [setup, set_mode, set_current, set_enable, digitalWrite, analogWrite, pinMode,
    Function.update, PIN_RESET, PIN_SLEEP, PIN_ENABLE, PIN_MODE0, PIN_MODE1, PIN_MODE2]

/-- C12. After `setup()`, whatever the values were before, the three mode
lines hold the levels that `set_mode(DEFAULT_MODE)` writes, all LOW, and the
current-reference analog output holds the level that
`set_current(DEFAULT_CURRENT)` writes, which is 51. -/
theorem C12_setup_applies_defaults (s : State) :
    ((setup s).level PIN_MODE0 = (set_mode DEFAULT_MODE s).level PIN_MODE0 ∧
      (setup s).level PIN_MODE1 = (set_mode DEFAULT_MODE s).level PIN_MODE1 ∧
      (setup s).level PIN_MODE2 = (set_mode DEFAULT_MODE s).level PIN_MODE2) ∧
    ((setup s).level PIN_MODE0 = false ∧ (setup s).level PIN_MODE1 = false ∧
      (setup s).level PIN_MODE2 = false) ∧
    (setup s).analog PIN_VREF = (set_current DEFAULT_CURRENT s).analog PIN_VREF ∧
    (setup s).analog PIN_VREF = 51 := by
  have h1 : current_level (toInt16 DEFAULT_CURRENT) = 51 := by decide
  simp [setup, set_mode, set_current, digitalWrite, analogWrite, pinMode,
    Function.update, PIN_MODE0, PIN_MODE1, PIN_MODE2, h1, DEFAULT_MODE, toByte, bitRead]

/-- C13 (counterexample). The threshold 5 is non-negative and below the stop
value, and the counter is 32767, a non-negative value left by the earlier
threshold 32767 after 32767 ticks; after one tick the counter is -32768, so
`0 ≤ counter` fails. -/
theorem C13_counter_wraps_below_zero :
    (0 : Int) ≤ 5 ∧ (5 : Int) < COUNT_STOP ∧
    (store_compare 5 (ticks 32767 (store_compare 32767 boot))).compare = 5 ∧
    (store_compare 5 (ticks 32767 (store_compare 32767 boot))).count = 32767 ∧
    (TIMER0_COMPA_vect (store_compare 5 (ticks 32767 (store_compare 32767 boot)))).count
      = -32768 ∧
    ¬ (0 ≤ (TIMER0_COMPA_vect
        (store_compare 5 (ticks 32767 (store_compare 32767 boot)))).count) := by
  have hup := ticks_count_up 32767 (store_compare 32767 boot) (by decide) (by decide) (by decide)
  rw [hup]
  decide

/-- C13 (amended). For every threshold `T` from 0 to 32767 held in `compare`:
from every state with a counter between 0 and 32766 (also one above `T`), the
counter after one tick is between 0 and `T`; from every state at all the
counter after one tick is at most `T`; hence after any sequence of threshold
assignments and ticks that ends with the assignment of `T` and a tick, the
counter is at most `T`. -/
theorem C13_counter_bound (T : Int) (s : State) (hT0 : 0 ≤ T) (hT : T ≤ 32767) :
    (s.compare = T → 0 ≤ s.count → s.count ≤ 32766 →
      0 ≤ (TIMER0_COMPA_vect s).count ∧ (TIMER0_COMPA_vect s).count ≤ T) ∧
    (s.compare = T → (TIMER0_COMPA_vect s).count ≤ T) ∧
    (∀ Ts : List Int, (ticks_with (Ts ++ [T]) s).count ≤ T) := by
  have hint : IsInt16 T := by unfold IsInt16 INT_MIN INT_MAX; omega
  have hub : ∀ s' : State, s'.compare = T → (TIMER0_COMPA_vect s').count ≤ T := by
    intro s' hc
    have := tick_count_le s' (by rw [hc]; exact hint) (by rw [hc]; exact hT0)
    rw [hc] at this
    exact this
  refine ⟨?_, hub s, ?_⟩
  · intro hc h0 h1
    exact ⟨tick_count_nonneg s (by rw [hc]; exact hint) h0 h1, hub s hc⟩
  · intro Ts
    rw [ticks_with_append]
    apply hub
    show toInt16 T = T
    exact toInt16_of_isInt16 hint

/-- Instance of the counter bound: counter 9 left by threshold 12, then
threshold 5; and the sequence of thresholds 12, 7, 5 from start-up. -/
theorem C13_counter_bound_witness :
    (0 : Int) ≤ 5 ∧ (5 : Int) ≤ 32767 ∧
    (store_compare 5 (ticks 9 boot)).compare = 5 ∧
    0 ≤ (store_compare 5 (ticks 9 boot)).count ∧
    (store_compare 5 (ticks 9 boot)).count ≤ 32766 ∧
    (0 ≤ (TIMER0_COMPA_vect (store_compare 5 (ticks 9 boot))).count ∧
      (TIMER0_COMPA_vect (store_compare 5 (ticks 9 boot))).count ≤ 5) ∧
    (ticks_with ([12, 7] ++ [5]) (store_compare 5 (ticks 9 boot))).count ≤ 5 :=
  ⟨by decide, by decide, by decide, by decide, by decide,
   (C13_counter_bound 5 (store_compare 5 (ticks 9 boot)) (by decide) (by decide)).1
     (by decide) (by decide) (by decide),
   (C13_counter_bound 5 (store_compare 5 (ticks 9 boot)) (by decide) (by decide)).2.2 [12, 7]⟩

/-- C14. `set_mode`, `set_current` and `set_enable` leave the threshold, the
tick counter, the toggle flag and the step level unchanged, and each writes
only its own lines: the calls they add to the trace go to the three mode
lines, to the current-reference analog output and to the enable line, and
every other pin keeps its value. A tick of `TIMER0_COMPA_vect` leaves the
threshold, the analog outputs, the pin directions and every pin level other
than PIN_STEP unchanged, and the only call it can add is a write to
PIN_STEP. -/
theorem C14_separation (level amps : Int) (state : Bool) (s : State) (p : Nat) :
    ((∃ a b c : Bool, (set_mode level s).trace = s.trace ++
        [Event.digitalWrite PIN_MODE0 a, Event.digitalWrite PIN_MODE1 b,
         Event.digitalWrite PIN_MODE2 c]) ∧
      (set_mode level s).compare = s.compare ∧ (set_mode level s).count = s.count ∧
      (set_mode level s).high = s.high ∧
      (set_mode level s).level PIN_STEP = s.level PIN_STEP ∧
      (set_mode level s).analog = s.analog ∧
      (p ≠ PIN_MODE0 → p ≠ PIN_MODE1 → p ≠ PIN_MODE2 →
        (set_mode level s).level p = s.level p)) ∧
    ((∃ v : Int, (set_current amps s).trace = s.trace ++ [Event.analogWrite PIN_VREF v]) ∧
      (set_current amps s).compare = s.compare ∧ (set_current amps s).count = s.count ∧
      (set_current amps s).high = s.high ∧
      (set_current amps s).level = s.level ∧
      (p ≠ PIN_VREF → (set_current amps s).analog p = s.analog p)) ∧
    ((∃ v : Bool, (set_enable state s).trace = s.trace ++ [Event.digitalWrite PIN_ENABLE v]) ∧
      (set_enable state s).compare = s.compare ∧ (set_enable state s).count = s.count ∧
      (set_enable state s).high = s.high ∧
      (set_enable state s).level PIN_STEP = s.level PIN_STEP ∧
      (set_enable state s).analog = s.analog ∧
      (p ≠ PIN_ENABLE → (set_enable state s).level p = s.level p)) ∧
    (((TIMER0_COMPA_vect s).trace = s.trace ∨
        ∃ v : Bool, (TIMER0_COMPA_vect s).trace = s.trace ++ [Event.digitalWrite PIN_STEP v]) ∧
      (TIMER0_COMPA_vect s).compare = s.compare ∧
      (TIMER0_COMPA_vect s).analog = s.analog ∧
      (TIMER0_COMPA_vect s).output = s.output ∧
      (p ≠ PIN_STEP → (TIMER0_COMPA_vect s).level p = s.level p)) := by
  refine ⟨?_, ?_, ?_, ?_⟩
  · have htr : ∃ a b c : Bool, (set_mode level s).trace = s.trace ++
        [Event.digitalWrite PIN_MODE0 a, Event.digitalWrite PIN_MODE1 b,
         Event.digitalWrite PIN_MODE2 c] :=
      ⟨bitRead (if toByte level > 5 then 5 else toByte level) 0 != 0,
       bitRead (if toByte level > 5 then 5 else toByte level) 1 != 0,
       bitRead (if toByte level > 5 then 5 else toByte level) 2 != 0,
       by simp [set_mode, digitalWrite]⟩
    refine ⟨htr, rfl, rfl, rfl, ?_, rfl, ?_⟩
    · simp [set_mode, digitalWrite, Function.update, PIN_STEP, PIN_MODE0, PIN_MODE1, PIN_MODE2]
    · intro h0 h1 h2
      simp [set_mode, digitalWrite, Function.update, h0, h1, h2]
  · refine ⟨⟨_, rfl⟩, rfl, rfl, rfl, rfl, ?_⟩
    intro h
    simp [set_current, analogWrite, Function.update, h]
  · refine ⟨⟨_, rfl⟩, rfl, rfl, rfl, ?_, rfl, ?_⟩
    · simp [set_enable, digitalWrite, Function.update, PIN_STEP, PIN_ENABLE]
    · intro h
      simp [set_enable, digitalWrite, Function.update, h]
  · refine ⟨?_, ?_⟩
    · rcases tick_cases s with ⟨h, _, _⟩ | ⟨h, _, _, _⟩
      · exact Or.inl h
      · exact Or.inr ⟨_, h⟩
    · by_cases hstop : s.compare < COUNT_STOP
      · by_cases hgt : toInt16 (s.count + 1) > s.compare
        · refine ⟨?_, ?_, ?_, ?_⟩ <;>
            simp [TIMER0_COMPA_vect, hstop, hgt, digitalWrite, Function.update]
          intro h hp
          exact absurd hp h
        · simp [TIMER0_COMPA_vect, hstop, hgt]
      · simp [TIMER0_COMPA_vect, hstop]

/-- Instance of the separation theorem at pin 1, which is none of the driven
lines, from the start-up state. -/
theorem C14_separation_witness :
    (1 : Nat) ≠ PIN_MODE0 ∧ (1 : Nat) ≠ PIN_MODE1 ∧ (1 : Nat) ≠ PIN_MODE2 ∧
    (1 : Nat) ≠ PIN_VREF ∧ (1 : Nat) ≠ PIN_ENABLE ∧ (1 : Nat) ≠ PIN_STEP ∧
    (set_mode 3 boot).level 1 = boot.level 1 ∧
    (set_current 1 boot).analog 1 = boot.analog 1 ∧
    (set_enable true boot).level 1 = boot.level 1 ∧
    (TIMER0_COMPA_vect boot).level 1 = boot.level 1 :=
  ⟨by decide, by decide, by decide, by decide, by decide, by decide,
   (C14_separation 3 1 true boot 1).1.2.2.2.2.2.2 (by decide) (by decide) (by decide),
   (C14_separation 3 1 true boot 1).2.1.2.2.2.2.2 (by decide),
   (C14_separation 3 1 true boot 1).2.2.1.2.2.2.2.2.2 (by decide),
   (C14_separation 3 1 true boot 1).2.2.2.2.2.2.2 (by decide)⟩

/-- C15. A tick either writes nothing and keeps the flag, or it toggles: it
then writes to PIN_STEP the new value of the flag, which is the inverse of
the old one, so that the step level equals the flag afterwards. Whatever
thresholds are assigned between ticks, the writes are successive toggles and
the levels written alternate; from start-up (flag false) the first write, if
there is one, is HIGH. -/
theorem C15_flag_tracks_step (s : State) :
    (((TIMER0_COMPA_vect s).trace = s.trace ∧ (TIMER0_COMPA_vect s).high = s.high ∧
        (TIMER0_COMPA_vect s).level = s.level) ∨
      ((TIMER0_COMPA_vect s).trace =
          s.trace ++ [Event.digitalWrite PIN_STEP (TIMER0_COMPA_vect s).high] ∧
        (TIMER0_COMPA_vect s).high = (!s.high) ∧
        (TIMER0_COMPA_vect s).level PIN_STEP = (TIMER0_COMPA_vect s).high ∧
        (TIMER0_COMPA_vect s).count = 0)) ∧
    (∀ Ts : List Int, ∃ k : Nat,
      (ticks_with Ts s).trace = s.trace ++ toggleEvents k s.high ∧
      (ticks_with Ts s).high = flipN k s.high ∧
      List.Chain' (fun a b => a ≠ b) (stepLevels (toggleEvents k s.high))) ∧
    (∀ Ts : List Int, List.Chain' (fun a b => a ≠ b) (stepLevels (ticks_with Ts boot).trace)) ∧
    (∀ Ts : List Int, (ticks_with Ts boot).trace = [] ∨
      ∃ rest, (ticks_with Ts boot).trace = Event.digitalWrite PIN_STEP true :: rest) := by
  refine ⟨tick_cases s, ?_, ?_, ?_⟩
  · intro Ts
    obtain ⟨k, h1, h2⟩ := ticks_with_toggles Ts s
    exact ⟨k, h1, h2, stepLevels_toggleEvents_chain k s.high⟩
  · intro Ts
    obtain ⟨k, h1, _⟩ := ticks_with_toggles Ts boot
    rw [h1]
    exact stepLevels_toggleEvents_chain k false
  · intro Ts
    obtain ⟨k, h1, _⟩ := ticks_with_toggles Ts boot
    rw [h1]
    cases k with
    | zero => left; rfl
    | succ k => right; exact ⟨toggleEvents k true, rfl⟩

/-- C16 (counterexample). The threshold 0 is non-positive and the counter is
32767, a non-negative value left by the earlier threshold 32767 after 32767
ticks; the tick writes nothing and leaves the counter at -32768 instead of
toggling and clearing it. -/
theorem C16_no_toggle_from_int_max :
    (store_compare 0 (ticks 32767 (store_compare 32767 boot))).compare ≤ 0 ∧
    0 ≤ (store_compare 0 (ticks 32767 (store_compare 32767 boot))).count ∧
    (store_compare 0 (ticks 32767 (store_compare 32767 boot))).count = 32767 ∧
    (TIMER0_COMPA_vect (store_compare 0 (ticks 32767 (store_compare 32767 boot)))).trace =
      (store_compare 0 (ticks 32767 (store_compare 32767 boot))).trace ∧
    (TIMER0_COMPA_vect (store_compare 0 (ticks 32767 (store_compare 32767 boot)))).count
      = -32768 := by
  have hup := ticks_count_up 32767 (store_compare 32767 boot) (by decide) (by decide) (by decide)
  rw [hup]
  decide

/-- C16 (amended). For every value of `compare` that is zero or negative and
every state with a counter between 0 and 32766, each tick toggles the step
output and clears the counter: a tick writes the inverse of the flag, and the
writes of `n` ticks are `n` successive toggles; a negative threshold does not
stop the engine. -/
theorem C16_nonpositive_threshold (n : Nat) (s : State) (h1 : IsInt16 s.compare)
    (h2 : s.compare ≤ 0) (h3 : 0 ≤ s.count) (h4 : s.count ≤ 32766) :
    (TIMER0_COMPA_vect s).trace = s.trace ++ [Event.digitalWrite PIN_STEP (!s.high)] ∧
    (TIMER0_COMPA_vect s).count = 0 ∧
    (ticks n s).trace = s.trace ++ toggleEvents n s.high ∧
    (ticks n s).high = flipN n s.high ∧
    (ticks (n + 1) s).count = 0 := by
  have key : ∀ m : Nat, (ticks m s).compare = s.compare ∧ 0 ≤ (ticks m s).count ∧
      (ticks m s).count ≤ 32766 ∧ (ticks m s).trace = s.trace ++ toggleEvents m s.high ∧
      (ticks m s).high = flipN m s.high ∧ (ticks (m + 1) s).count = 0 := by
    intro m
    induction m with
    | zero =>
      refine ⟨rfl, h3, h4, by simp [ticks, toggleEvents], rfl, ?_⟩
      rw [ticks_succ]
      show (TIMER0_COMPA_vect s).count = 0
      rw [tick_toggle s h1 h4 (by omega)]
    | succ m ih =>
      obtain ⟨ic, i0, i1, itr, ihigh, _⟩ := ih
      have hint : IsInt16 (ticks m s).compare := by rw [ic]; exact h1
      have ht := tick_toggle (ticks m s) hint i1 (by rw [ic]; omega)
      have hs : ticks (m + 1) s =
          { digitalWrite PIN_STEP (!(ticks m s).high) (ticks m s) with
            high := !(ticks m s).high, count := 0 } := by
        rw [ticks_succ, ht]
      have hcmp : (ticks (m + 1) s).compare = s.compare := by rw [hs]; exact ic
      have hcnt : (ticks (m + 1) s).count = 0 := by rw [hs]
      have hint' : IsInt16 (ticks (m + 1) s).compare := by rw [hcmp]; exact h1
      refine ⟨hcmp, by omega, by omega, ?_, ?_, ?_⟩
      · rw [hs, toggleEvents_succ, ← ihigh, ← List.append_assoc, ← itr]
        rfl
      · rw [hs, flipN_succ, ← ihigh]
      · rw [ticks_succ (m + 1) s,
          tick_toggle (ticks (m + 1) s) hint' (by omega) (by omega)]
  obtain ⟨_, _, _, ktr, khigh, kcnt⟩ := key n
  have h0 := tick_toggle s h1 h4 (by omega)
  refine ⟨by rw [h0]; rfl, by rw [h0], ktr, khigh, kcnt⟩

/-- Instance of the theorem for non-positive thresholds: threshold -3
assigned after nine ticks from start-up, then four ticks. -/
theorem C16_nonpositive_threshold_witness :
    IsInt16 (store_compare (-3) (ticks 9 boot)).compare ∧
    (store_compare (-3) (ticks 9 boot)).compare ≤ 0 ∧
    0 ≤ (store_compare (-3) (ticks 9 boot)).count ∧
    (store_compare (-3) (ticks 9 boot)).count ≤ 32766 ∧
    (ticks 4 (store_compare (-3) (ticks 9 boot))).trace =
      (store_compare (-3) (ticks 9 boot)).trace ++
        toggleEvents 4 (store_compare (-3) (ticks 9 boot)).high ∧
    (ticks (4 + 1) (store_compare (-3) (ticks 9 boot))).count = 0 :=
  ⟨by decide, by decide, by decide, by decide,
   (C16_nonpositive_threshold 4 (store_compare (-3) (ticks 9 boot))
      (by decide) (by decide) (by decide) (by decide)).2.2.1,
   (C16_nonpositive_threshold 4 (store_compare (-3) (ticks 9 boot))
      (by decide) (by decide) (by decide) (by decide)).2.2.2.2⟩

end Drv8825
